import Mathlib

/-!
Shallow embedding of the file-serving engine in `src/server.py` (repository
`hhhaiai/dir_server`): the paginated/searchable directory-listing renderer,
the directory-size cache, the archive builder, and the chunked content
streamer, together with theorems checking the specification's claims.

Filesystem, socket and `datetime` effects are modelled as explicit inputs
(oracles) passed to the embedded functions; machine integers are `Nat`/`Int`;
exceptions are `Except`/`Option`.
-/

namespace DirServer

/-! ## Configuration constants (server.py lines 37-43) -/

def PAGE_SIZE : Nat := 20

def FILE_CHUNK_SIZE : Nat := 16 * 1024

deriving instance DecidableEq for Except

/-! ## Python string primitives

`html.escape`, `urllib.parse.quote`, `str.lower`, the substring operator
`in`, `str` comparison and stable `list.sort` are embedded over `List Char`
so that all of them evaluate inside the kernel.  `charLower` matches CPython
`str.lower` on the ASCII range, which covers every string these claims use.
-/

/-- Python `html.escape(s, quote)`: `&`, `<`, `>` always become entities;
`"` and the apostrophe (codepoint 39) only when `quote=True`.  CPython does
this with sequential `str.replace` calls; mapping character by character is
equivalent because no replacement output contains a character that a later
replacement rewrites. -/
def escapeChar (quoteFlag : Bool) (c : Char) : String :=
  if c = '&' then "&amp;"
  else if c = '<' then "&lt;"
  else if c = '>' then "&gt;"
  else if quoteFlag ∧ c.toNat = 34 then "&quot;"
  else if quoteFlag ∧ c.toNat = 39 then "&#x27;"
  else String.singleton c

def html_escape (quoteFlag : Bool) (s : String) : String :=
  String.join (s.data.map (escapeChar quoteFlag))

/-- UTF-8 bytes of one codepoint (standard 1-4 byte encoding). -/
def utf8Bytes (c : Char) : List Nat :=
  let n := c.toNat
  if n < 128 then [n]
  else if n < 2048 then [192 + n / 64, 128 + n % 64]
  else if n < 65536 then [224 + n / 4096, 128 + (n / 64) % 64, 128 + n % 64]
  else [240 + n / 262144, 128 + (n / 4096) % 64, 128 + (n / 64) % 64, 128 + n % 64]

/-- Bytes `urllib.parse.quote` leaves unencoded with its default
`safe='/'`: ASCII letters, digits, `_`, `.`, `-`, `~` and `/`. -/
def isUrlSafeByte (b : Nat) : Bool :=
  (65 ≤ b && b ≤ 90) || (97 ≤ b && b ≤ 122) || (48 ≤ b && b ≤ 57) ||
  (b == 95) || (b == 46) || (b == 45) || (b == 126) || (b == 47)

def hexDigitUpper (n : Nat) : Char :=
  if n < 10 then Char.ofNat (48 + n) else Char.ofNat (55 + n)

def percentEncodeByte (b : Nat) : String :=
  String.mk ['%', hexDigitUpper (b / 16), hexDigitUpper (b % 16)]

/-- Python `urllib.parse.quote(s)` (default `safe='/'`). -/
def url_quote (s : String) : String :=
  String.join (s.data.map (fun c =>
    String.join ((utf8Bytes c).map (fun b =>
      if isUrlSafeByte b then String.singleton (Char.ofNat b) else percentEncodeByte b))))

/-- Substring test on character lists: Python `pat in hay` (contiguous). -/
def containsSubL (pat : List Char) : List Char → Bool
  | [] => pat.isEmpty
  | c :: rest => pat.isPrefixOf (c :: rest) || containsSubL pat rest

/-- Python `pat in hay` for strings. -/
def pyContains (hay pat : String) : Bool := containsSubL pat.data hay.data

/-- Bounded-depth containment scanner used in proofs: scan a concatenation
piece by piece, carrying the final `pat.length - 1` characters of the text
seen so far across each boundary, so an occurrence spanning a boundary is
still found.  `scanPieces_correct` below proves it equal to `containsSubL`
on the flattened list; it exists because one monolithic scan of a whole
listing would exceed the kernel's evaluation depth. -/
def scanPieces (pat w : List Char) : List (List Char) → Bool
  | [] => false
  | p :: ps =>
      containsSubL pat (w ++ p) ||
        scanPieces pat ((w ++ p).drop ((w ++ p).length - (pat.length - 1))) ps

/-- Python `str.lower` on one character (ASCII range, as used here). -/
def charLower (c : Char) : Char :=
  if 'A' ≤ c ∧ c ≤ 'Z' then Char.ofNat (c.toNat + 32) else c

/-- Python `str.lower`. -/
def strToLower (s : String) : String := String.mk (s.data.map charLower)

/-- Python `<` on strings: lexicographic by codepoint, a proper prefix is
smaller. -/
def charListLt : List Char → List Char → Bool
  | _, [] => false
  | [], _ :: _ => true
  | a :: as, b :: bs => if a < b then true else if b < a then false else charListLt as bs

def pyStrLe (a b : String) : Bool := !(charListLt b.data a.data)

/-- The comparison realising `entries.sort(key=lambda a: a.lower())`
(server.py line 404). -/
def sortKeyLower (a b : String) : Bool := pyStrLe (strToLower a) (strToLower b)

/-- Insert into a sorted list, before the first element it is `le`-below
or equal to.  Together with `stableSortBy` this is a stable sort. -/
def insertLe (le : String → String → Bool) (x : String) : List String → List String
  | [] => [x]
  | y :: ys => if le x y then x :: y :: ys else y :: insertLe le x ys

/-- Stable ascending sort.  CPython `list.sort` is also stable, and a stable
sort by a fixed total preorder is unique, so this computes exactly the list
`entries.sort(key=lambda a: a.lower())` produces when used with
`sortKeyLower`. -/
def stableSortBy (le : String → String → Bool) : List String → List String
  | [] => []
  | x :: xs => insertLe le x (stableSortBy le xs)

/-! ## Listing pipeline (server.py `list_directory`, lines 388-421) -/

/-- Lines 401-402: `if search: entries = [e for e in entries if search in e.lower()]`. -/
def filterEntries (entries : List String) (search : String) : List String :=
  if search ≠ "" then entries.filter (fun e => pyContains (strToLower e) search) else entries

/-- Line 404: `entries.sort(key=lambda a: a.lower())`. -/
def sortEntries (l : List String) : List String := stableSortBy sortKeyLower l

/-- Line 406: `total_pages = max(1, (total_entries + PAGE_SIZE - 1) // PAGE_SIZE)`. -/
def totalPagesOf (totalEntries : Nat) : Nat :=
  max 1 ((totalEntries + PAGE_SIZE - 1) / PAGE_SIZE)

/-- Line 407: `page = max(1, min(page, total_pages))`; the page number is a
Python `int`, so `Int` here. -/
def clampPage (page : Int) (totalPages : Nat) : Int :=
  max 1 (min page (totalPages : Int))

/-- Python `l[s:e]` for `0 ≤ s ≤ e` (line 410: `entries[start_idx:end_idx]`). -/
def pySlice (l : List String) (s e : Nat) : List String := (l.drop s).take (e - s)

structure ListingOutcome where
  totalPages : Nat
  page : Int
  pageEntries : List String
deriving DecidableEq, Repr

/-- Lines 401-410 of `list_directory`: filter, sort, compute `total_pages`,
clamp the page, slice the page window.  The `page` argument is the already
`int()`-converted query parameter. -/
def list_directory_paging (entries : List String) (search : String) (page : Int) :
    ListingOutcome :=
  let es := sortEntries (filterEntries entries search)
  let total_entries := es.length
  let total_pages := totalPagesOf total_entries
  let page := clampPage page total_pages
  let start_idx := ((page - 1) * (PAGE_SIZE : Int)).toNat
  let end_idx := start_idx + PAGE_SIZE
  ⟨total_pages, page, pySlice es start_idx end_idx⟩

/-! ## Python `int()` (server.py line 398) -/

def isPySpace (c : Char) : Bool :=
  c.toNat = 32 || c.toNat = 9 || c.toNat = 10 || c.toNat = 13 || c.toNat = 11 || c.toNat = 12

def isDigitC (c : Char) : Bool := 48 ≤ c.toNat && c.toNat ≤ 57

def digitVal (c : Char) : Nat := c.toNat - 48

/-- Digits after the first one; a single `_` may separate two digits. -/
def pyDigitsCore : List Char → Nat → Option Nat
  | [], acc => some acc
  | '_' :: c :: rest, acc =>
      if isDigitC c then pyDigitsCore rest (acc * 10 + digitVal c) else none
  | ['_'], _ => none
  | c :: rest, acc =>
      if isDigitC c then pyDigitsCore rest (acc * 10 + digitVal c) else none

def pyIntDigits : List Char → Option Nat
  | [] => none
  | c :: rest => if isDigitC c then pyDigitsCore rest (digitVal c) else none

/-- Python `int(s)` for a decimal string: optional surrounding whitespace,
optional sign, then a nonempty digit run (underscores allowed between
digits); anything else raises `ValueError`. -/
def pyInt (s : String) : Except String Int :=
  let t := ((s.data.dropWhile isPySpace).reverse.dropWhile isPySpace).reverse
  let signAndDigits : Int × List Char :=
    match t with
    | '-' :: rest => (-1, rest)
    | '+' :: rest => (1, rest)
    | _ => (1, t)
  match pyIntDigits signAndDigits.2 with
  | some n => Except.ok (signAndDigits.1 * n)
  | none => Except.error "ValueError"

/-- Lines 397-399 followed by the paging stage: parse the `page` query
parameter with `int()` (an invalid literal raises `ValueError`, which
propagates out of `list_directory` before any clamping or rendering),
lowercase the `search` parameter, then run the paging pipeline. -/
def list_directory_request (entries : List String) (pageQ searchQ : Option String) :
    Except String ListingOutcome := do
  let page ← match pageQ with
    | none => pure (1 : Int)
    | some s => pyInt s
  let search := strToLower (searchQ.getD "")
  pure (list_directory_paging entries search page)

/-! ## HTML rendering (server.py lines 99-158 and 423-516)

The literal text of `DIRECTORY_LIST_TEMPLATE` and `DIRECTORY_LIST_FOOTER`
is reproduced below, split at the `str.format` placeholders (`{charset}`,
`{title}` twice, `{escaped_search}`, `{pagination_links}`); the doubled
braces of the Python source appear here as single brace characters, exactly
as `str.format` emits them.
-/

def TPL_part1 : String :=
  "<!DOCTYPE HTML>\n<html>\n<head>\n    <meta http-equiv=\"Content-Type\" content=\"text/html; charset="

def TPL_part2 : String :=
  "\">\n    <title>"

def TPL_part3_c0 : String :=
  "</title>\n    <meta name=\"viewport\" content=\"width=device-width, initial-scale=1.0\">\n    <style>\n        :root \x7b --primary-color: #007BFF; --hover-color: #0056b3; --header-bg: #343a40; --item-bg: #ffffff; --text-color: #333; --secondary-text: #6c757d; --action-color: #28a745; --action-hover: #1e7e34; --border-color: #dee2e6; --shadow: rgba(0,0,0,0.1); \x7d\n        body \x7b font-family: -apple-system, BlinkMacSystemFont, \"Segoe UI\", Roboto, \"Helvetica Neue\", Arial, sans-serif; background-color: #f8f9fa; margin: 0; padding: 20px; \x7d\n        h1 \x7b font-size: 1.5rem; text-align: center; color: var(--text-color); margin-bottom: 1.5rem; \x7d\n        .search \x7b text-align: center; margin-bottom: 1.5rem; \x7d\n        .search input[type=\"text\"] \x7b padding: 0.5rem; width: calc(100% - 220px); max-width: 300px; border: 1px solid #ccc; border-radius: 4px; \x7d\n        .search input[type=\"submit\"] \x7b padding: 0.5rem 1rem; background-color: var(--primary-color); color: white; border: none; border-radius: 4px; cursor: pointer; margin-left: 5px; \x7d\n        .search input[type=\"submit\"]:hover \x7b background-color: var(--hover-color); \x7d\n        ul \x7b list-style-type: none; padding: 0; width: 95%; max-width: 1200px; margin: 0 auto; \x7d\n        li \x7b display: flex; justify-content: space-between; align-items: center; background-color: var(--item-bg); padding: 0.75rem 1rem; margin-bottom: 0.5rem; border-radius: 6px; box-shadow: 0 1px 3px var(--shadow); transition: box-shadow 0.2s; \x7d\n        li:hover \x7b box-shadow: 0 2px 5px r"

def TPL_part3_c1 : String :=
  "gba(0,0,0,0.15); \x7d\n        li.header \x7b background-color: var(--header-bg); color: white; font-weight: bold; box-shadow: none; \x7d\n        li.header span \x7b color: white; \x7d\n        a \x7b text-decoration: none; color: var(--primary-color); font-weight: 500; \x7d\n        a:hover \x7b text-decoration: underline; \x7d\n        .size, .date \x7b color: var(--secondary-text); font-size: 0.875rem; \x7d\n        .actions \x7b color: var(--action-color); \x7d\n        .actions a \x7b color: var(--action-color); margin: 0 5px; font-size: 0.875rem; \x7d\n        .actions a:hover \x7b color: var(--action-hover); \x7d\n        .pagination \x7b text-align: center; margin: 2rem 0; \x7d\n        .pagination a, .pagination span \x7b display: inline-block; padding: 0.5rem 0.75rem; margin: 0 0.25rem; text-decoration: none; color: var(--primary-color); border: 1px solid var(--border-color); border-radius: 4px; \x7d\n        .pagination a:hover \x7b background-color: #e9ecef; \x7d\n        .pagination .current \x7b background-color: var(--primary-color); color: white; border-color: var(--primary-color); \x7d\n        .pagination .disabled \x7b color: var(--secondary-text); cursor: not-allowed; border-color: var(--border-color); \x7d\n        .back-link \x7b display: block; text-align: center; margin-top: 1.5rem; \x7d\n        @media (max-width: 768px) \x7b\n            ul \x7b width: 100%; \x7d\n            li \x7b flex-direction: column; align-items: flex-start; \x7d\n            .size, .date, .actions \x7b width: 100%; margin-top: 0.25rem; \x7d\n            .search input[type=\"text\"] \x7b width: 70%; margi"

def TPL_part3_c2 : String :=
  "n-bottom: 0.5rem; \x7d\n        \x7d\n    </style>\n</head>\n<body>\n    <h1>"

/-- The concatenation of the `TPL_part3_c*` chunks is the verbatim template text;
the split only keeps each literal small. -/
def TPL_part3 : String :=
  TPL_part3_c0 ++ TPL_part3_c1 ++ TPL_part3_c2

def TPL_part4 : String :=
  "</h1>\n    <div class=\"search\">\n        <form method=\"get\">\n            <input type=\"text\" name=\"search\" value=\""

def TPL_part5 : String :=
  "\" placeholder=\"搜索文件/文件夹...\">\n            <input type=\"submit\" value=\"搜索\">\n        </form>\n    </div>\n    <ul>\n        <li class=\"header\">\n            <span>名称</span>\n            <span class=\"size\">大小</span>\n            <span class=\"date\">修改日期</span>\n            <span class=\"actions\">操作</span>\n        </li>\n        <li><a href=\"..\">[返回上级目录]</a></li>\n"

def FOOTER_part1 : String :=
  "</ul>\n<div class=\"pagination\">"

def FOOTER_part2 : String :=
  "</div>\n<div class=\"back-link\"><a href=\"/\">回到根目录</a></div>\n</body></html>"

/-- `DIRECTORY_LIST_TEMPLATE.format(charset=..., title=..., escaped_search=...)`
(lines 432-436; the template interpolates `title` twice). -/
def directory_list_header (charset title escaped_search : String) : String :=
  TPL_part1 ++ charset ++ TPL_part2 ++ title ++ TPL_part3 ++ title ++
    TPL_part4 ++ escaped_search ++ TPL_part5

/-- `DIRECTORY_LIST_FOOTER.format(pagination_links=...)` (line 489). -/
def directory_list_footer (pagination_links : String) : String :=
  FOOTER_part1 ++ pagination_links ++ FOOTER_part2

/-- `generate_directory_entry` (lines 492-498). -/
def generate_directory_entry (linkname displayname size_str mod_time_str : String) :
    String :=
  let safe_linkname := html_escape true linkname
  let safe_displayname := html_escape false displayname
  "<li><a href=\"" ++ safe_linkname ++ "/\">" ++ safe_displayname ++ "/</a>" ++
    "<span class=\"size\">" ++ size_str ++ "</span>" ++
    "<span class=\"date\">" ++ mod_time_str ++ "</span>" ++
    "<span class=\"actions\"><a href=\"" ++ safe_linkname ++
    ".zip\">下载 (ZIP)</a></span></li>"

/-- The preview allow-list of `generate_file_entry` (lines 503-508). -/
def previewable_extensions : List String :=
  [".txt", ".csv", ".log", ".md", ".json", ".xml",
   ".yaml", ".yml", ".ini", ".cfg",
   ".py", ".js", ".html", ".css", ".java", ".c", ".cpp", ".h", ".cs",
   ".rb", ".php", ".go", ".swift", ".ts", ".sh", ".bash", ".sql"]

/-- The suffix (with its dot) starting at the last `.`, skipping any leading
dots of the name: the extension part of `os.path.splitext` for a bare file
name. -/
def lastDotSuffix : List Char → Option (List Char)
  | [] => none
  | c :: rest =>
      match lastDotSuffix rest with
      | some s => some s
      | none => if c = '.' then some (c :: rest) else none

def splitext_ext (s : String) : String :=
  let cs := s.data
  let lead := (cs.takeWhile (fun c => c = '.')).length
  match lastDotSuffix (cs.drop lead) with
  | some suf => String.mk suf
  | none => ""

/-- `generate_file_entry` (lines 500-516). -/
def generate_file_entry (linkname displayname size_str mod_time_str : String) : String :=
  let safe_linkname := html_escape true linkname
  let safe_displayname := html_escape false displayname
  let ext := splitext_ext (strToLower displayname)
  let preview_link_html :=
    if previewable_extensions.contains ext then
      " <a href=\"" ++ safe_linkname ++ "\" target=\"_blank\">预览</a>"
    else ""
  "<li><a href=\"" ++ safe_linkname ++ "\">" ++ safe_displayname ++ "</a>" ++
    "<span class=\"size\">" ++ size_str ++ "</span>" ++
    "<span class=\"date\">" ++ mod_time_str ++ "</span>" ++
    "<span class=\"actions\"><a href=\"" ++ safe_linkname ++ "\" download>下载</a>" ++
    preview_link_html ++ "</span></li>"

/-- One numbered pagination link, `f'<a href="?page={p}&search={quote(search)}">{label}</a>'`. -/
def pageLink (p : Nat) (search label : String) : String :=
  "<a href=\"?page=" ++ toString p ++ "&search=" ++ url_quote search ++ "\">" ++
    label ++ "</a>"

/-- The pagination controls of `generate_html_list` (lines 462-488). -/
def pagination_links (page total_pages : Nat) (search : String) : String :=
  let prev :=
    if page > 1 then pageLink (page - 1) search "&laquo; 上一页"
    else "<span class=\"disabled\">&laquo; 上一页</span>"
  let start_page := max 1 (page - 2)
  let end_page := min total_pages (page + 2)
  let firstLinks :=
    if start_page > 1 then
      pageLink 1 search "1" ++ (if start_page > 2 then "<span>...</span>" else "")
    else ""
  let middle := String.join ((List.range' start_page (end_page + 1 - start_page)).map
    (fun p =>
      if p = page then "<span class=\"current\">" ++ toString p ++ "</span>"
      else pageLink p search (toString p)))
  let lastLinks :=
    if end_page < total_pages then
      (if end_page < total_pages - 1 then "<span>...</span>" else "") ++
        pageLink total_pages search (toString total_pages)
    else ""
  let next :=
    if page < total_pages then pageLink (page + 1) search "下一页 &raquo;"
    else "<span class=\"disabled\">下一页 &raquo;</span>"
  prev ++ firstLinks ++ middle ++ lastLinks ++ next

/-- What `generate_html_list` learns about one entry by calling `stat`,
`is_dir`, the size cache and `human_readable_size`/`strftime`
(lines 442-460): whether it is a directory, and the already formatted size
and modification-time strings.  These are filesystem/clock boundary values,
so the renderer takes them as an oracle. -/
structure EntryStat where
  isDir : Bool
  sizeStr : String
  modTimeStr : String

/-- `generate_html_list` (lines 423-490).  `displaypath` (lines 425-428) is
computed by the source but never interpolated into the template, so it does
not appear in the output; the title is the constant of line 430, the charset
is `sys.getfilesystemencoding()`, `utf-8` on the served platform.  For each
entry `displayname = linkname = name` (line 441). -/
def generate_html_list (statOf : String → EntryStat) (entries : List String)
    (page total_pages : Nat) (search : String) : String :=
  let header := directory_list_header "utf-8" (html_escape true "文件共享目录索引")
    (html_escape true search)
  let rows := String.join (entries.map (fun name =>
    let st := statOf name
    if st.isDir then generate_directory_entry name name st.sizeStr st.modTimeStr
    else generate_file_entry name name st.sizeStr st.modTimeStr))
  header ++ rows ++ directory_list_footer (pagination_links page total_pages search)

/-- The whole of `list_directory` (lines 388-421) after the directory has
been enumerated into `entries`: query parsing, paging, and HTML generation;
an invalid `page` parameter escapes as `ValueError` before anything is
rendered. -/
def list_directory (statOf : String → EntryStat) (entries : List String)
    (pageQ searchQ : Option String) : Except String String := do
  let o ← list_directory_request entries pageQ searchQ
  let search := strToLower (searchQ.getD "")
  pure (generate_html_list statOf o.pageEntries o.page.toNat o.totalPages search)

/-! ## Archive builder (server.py `create_zip`, lines 527-552)

The filesystem is narrowed to the two paths `create_zip` touches: the final
target `zip_name` and the process-unique temporary file.  A zip on disk is
its list of member files plus a flag saying whether the archive was
finalised (the `with ZipFile` block closed).  Exceptions are injected by a
`failAt` oracle: `some 0` makes `ZipFile(temp, 'w')` raise before the
temporary file exists, `some (i+1)` with `i < n` makes writing member `i`
raise, and `some (n+1)` makes the final rename raise.  The trace records the
filesystem after every mutation, so claims about intermediate states can be
read off it.
-/

structure ZipData where
  files : List String
  complete : Bool
deriving DecidableEq, Repr

structure ZipFS where
  target : Option ZipData
  temp : Option ZipData
deriving DecidableEq, Repr

structure ZipResult where
  ok : Bool
  fs : ZipFS
  trace : List ZipFS
deriving DecidableEq, Repr

/-- The `for file_path in directory_path.rglob('*')` loop (lines 538-541),
the implicit close of the `with` block, and the `shutil.move` (line 542);
on an injected exception, the `except` block (lines 545-552) unlinks the
temporary file.  `i` counts members already written; `rest` is the members
still to write. -/
def zipWriteGo (files : List String) (failAt : Option Nat) (i : Nat)
    (rest : List String) (fs : ZipFS) : ZipResult :=
  match rest with
  | [] =>
      let fsClosed : ZipFS := { fs with temp := some ⟨files, true⟩ }
      if failAt = some (i + 1) then
        let fsClean : ZipFS := { fsClosed with temp := none }
        ⟨false, fsClean, [fsClosed, fsClean]⟩
      else
        let fsDone : ZipFS := { target := some ⟨files, true⟩, temp := none }
        ⟨true, fsDone, [fsClosed, fsDone]⟩
  | _ :: rs =>
      if failAt = some (i + 1) then
        let fsClean : ZipFS := { fs with temp := none }
        ⟨false, fsClean, [fsClean]⟩
      else
        let fsNext : ZipFS := { fs with temp := some ⟨files.take (i + 1), false⟩ }
        let r := zipWriteGo files failAt (i + 1) rs fsNext
        ⟨r.ok, r.fs, fsNext :: r.trace⟩

/-- `create_zip(directory, zip_name)` (lines 527-552) under the build lock:
return success at once if the target exists (lines 529-531); otherwise
create the temporary file, write every member, close, and rename it onto
the target, cleaning the temporary file up on any injected exception.
`files` is the list of regular files `rglob` yields under the directory. -/
def create_zip (files : List String) (failAt : Option Nat) (fs : ZipFS) : ZipResult :=
  if fs.target.isSome then ⟨true, fs, []⟩
  else if failAt = some 0 then ⟨false, fs, []⟩
  else
    let fsTemp : ZipFS := { fs with temp := some ⟨[], false⟩ }
    let r := zipWriteGo files failAt 0 files fsTemp
    ⟨r.ok, r.fs, fsTemp :: r.trace⟩

/-! ## Size cache (server.py lines 366-386)

`_cached_get_directory_size` is an instance method decorated with
`functools.lru_cache(maxsize=128)`.  The cache therefore lives on the
function object (one cache for the whole process), but its key is the full
argument tuple `(self, path, mtime)` — it includes the handler instance.
`walkVal` is the byte total a recursive walk of the unmodified directory
returns (a filesystem oracle; the walk is deterministic while the directory
is unchanged), and the `Bool` in the result records whether this call
performed that walk.
-/

abbrev SizeKey := Nat × String × Nat

abbrev SizeCache := List (SizeKey × Nat)

/-- One `lru_cache(maxsize=128)` lookup/insert, most recent first: a hit
returns the cached value without walking and refreshes recency; a miss
walks, stores the result, and evicts beyond 128 entries. -/
def lruGet (walkVal : Nat) (k : SizeKey) (cache : SizeCache) :
    Nat × Bool × SizeCache :=
  match cache.find? (fun e => e.1 = k) with
  | some e => (e.2, false, e :: cache.filter (fun x => ¬ x.1 = k))
  | none => (walkVal, true, ((k, walkVal) :: cache).take 128)

/-- `self._cached_get_directory_size(path, mtime)` (lines 366-377): the
`lru_cache` key is `(selfId, path, mtime)` where `selfId` identifies the
bound handler instance. -/
def cached_get_directory_size (selfId : Nat) (path : String) (mtime : Nat)
    (walkVal : Nat) (cache : SizeCache) : Nat × Bool × SizeCache :=
  lruGet walkVal (selfId, path, mtime) cache

/-- `get_directory_size` (lines 379-386): stat the directory's mtime
(failure degrades to size 0 without walking), then consult the cache. -/
def get_directory_size (statMtime : Option Nat) (walkVal : Nat) (selfId : Nat)
    (path : String) (cache : SizeCache) : Nat × Bool × SizeCache :=
  match statMtime with
  | none => (0, false, cache)
  | some m => cached_get_directory_size selfId path m walkVal cache

/-! ## Content streamer (server.py lines 554-675)

`handle_text_file` and its two content-fetch branches.  A file's bytes are
a `List Nat`; `decoded` is the `utf-8` decode of those bytes (`none` models
`UnicodeDecodeError`); `mdConvert` is the `markdown.markdown` conversion, a
boundary function.  The two viewer-frame shells are opaque responses here:
no claim inspects their HTML.
-/

inductive TFResponse where
  | stream (chunks : List (List Nat))
  | mdRendered (html : String)
  | mdViewerFrame
  | codeViewerFrame
  | httpError (status : Nat) (msg : String)
deriving DecidableEq, Repr

/-- The `f.read(FILE_CHUNK_SIZE)` loop of `_serve_file_content`
(lines 619-625), written with an explicit fuel so the recursion is
structural: each iteration consumes at least one byte, so any fuel at least
the length of the remaining content reproduces the loop exactly. -/
def readChunksGo : Nat → List Nat → List (List Nat)
  | _, [] => []
  | 0, _ :: _ => []
  | fuel + 1, c :: rest =>
      ((c :: rest).take FILE_CHUNK_SIZE) :: readChunksGo fuel ((c :: rest).drop FILE_CHUNK_SIZE)

/-- Split the file into successive chunks of at most `FILE_CHUNK_SIZE`
bytes, stopping at the first empty read. -/
def readChunks (content : List Nat) : List (List Nat) :=
  readChunksGo content.length content

/-- `_serve_file_content` (lines 604-627): 404 if the path is not a regular
file, else a 200 `text/plain` response whose body is the chunk stream. -/
def serve_file_content (isFile : Bool) (content : List Nat) : TFResponse :=
  if isFile then TFResponse.stream (readChunks content)
  else TFResponse.httpError 404 "File not found"

/-- `_serve_file_content_as_html` (lines 644-675): 500 if the markdown
library is missing, 404 if not a file, 400 on `UnicodeDecodeError`, else
the converted HTML. -/
def serve_file_content_as_html (mdAvailable : Bool) (mdConvert : String → String)
    (isFile : Bool) (decoded : Option String) : TFResponse :=
  if mdAvailable = false then
    TFResponse.httpError 500 "Markdown rendering not available"
  else if isFile = false then TFResponse.httpError 404 "File not found"
  else
    match decoded with
    | none => TFResponse.httpError 400 "File encoding error"
    | some text => TFResponse.mdRendered (mdConvert text)

/-- `handle_text_file` (lines 554-602): with `action=get_content`, route to
the markdown branch only when `render=html` was passed AND the markdown
library is available AND the suffix lowercases to `.md` (line 564),
otherwise stream plain text; without `action=get_content`, emit a viewer
shell (markdown viewer only when the suffix is `.md` and the library is
available, line 581). -/
def handle_text_file (mdAvailable : Bool) (mdConvert : String → String)
    (suffix : String) (isFile : Bool) (content : List Nat) (decoded : Option String)
    (action renderQ : Option String) : TFResponse :=
  if action = some "get_content" then
    if renderQ = some "html" ∧ mdAvailable = true ∧ strToLower suffix = ".md" then
      serve_file_content_as_html mdAvailable mdConvert isFile decoded
    else serve_file_content isFile content
  else
    if strToLower suffix = ".md" ∧ mdAvailable = true then TFResponse.mdViewerFrame
    else TFResponse.codeViewerFrame

/-- A Server-Error-class (5xx) response. -/
def isServerError : TFResponse → Bool
  | TFResponse.httpError s _ => 500 ≤ s
  | _ => false

/-! ## General lemmas about the substring scan

These support the escaping claim: `containsSubL` over a concatenation
decomposes into a scan of the first part and a scan of a 7-character
boundary window glued to the rest, which is what `scanPieces` computes.
-/

theorem containsSubL_nil (B : List Char) : containsSubL [] B = true := by
  cases B <;> simp [containsSubL, List.isPrefixOf]

theorem isPrefixOf_append_left (pat X B : List Char) (h : pat.isPrefixOf X = true) :
    pat.isPrefixOf (X ++ B) = true := by
  induction pat generalizing X with
  | nil => simp [List.isPrefixOf]
  | cons a as ih =>
      cases X with
      | nil => simp [List.isPrefixOf] at h
      | cons x xs =>
          simp only [List.isPrefixOf, Bool.and_eq_true] at h
          simp only [List.cons_append, List.isPrefixOf, Bool.and_eq_true]
          exact ⟨h.1, ih xs h.2⟩

theorem isPrefixOf_append_of_le_length (pat X B : List Char)
    (h : pat.length ≤ X.length) : pat.isPrefixOf (X ++ B) = pat.isPrefixOf X := by
  induction pat generalizing X with
  | nil => simp [List.isPrefixOf]
  | cons a as ih =>
      cases X with
      | nil => simp at h
      | cons x xs =>
          simp only [List.cons_append, List.isPrefixOf, List.append_eq]
          rw [ih xs (by simp only [List.length_cons] at h; omega)]

theorem isPrefixOf_eq_false_of_short (pat X : List Char) (h : X.length < pat.length) :
    pat.isPrefixOf X = false := by
  induction pat generalizing X with
  | nil => simp at h
  | cons a as ih =>
      cases X with
      | nil => simp [List.isPrefixOf]
      | cons x xs =>
          have h2 := ih xs (by simp only [List.length_cons] at h; omega)
          simp [List.isPrefixOf, h2]

theorem containsSubL_eq_false_of_short (pat X : List Char) (h : X.length < pat.length) :
    containsSubL pat X = false := by
  induction X with
  | nil =>
      cases pat with
      | nil => simp at h
      | cons a as => simp [containsSubL]
  | cons x xs ih =>
      have h1 := isPrefixOf_eq_false_of_short pat (x :: xs) h
      have h2 := ih (by simp only [List.length_cons] at h ⊢; omega)
      simp [containsSubL, h1, h2]

theorem containsSubL_append_left (pat X B : List Char) (h : containsSubL pat X = true) :
    containsSubL pat (X ++ B) = true := by
  induction X with
  | nil =>
      have hp : pat = [] := by
        cases pat with
        | nil => rfl
        | cons a as => simp [containsSubL] at h
      subst hp
      exact containsSubL_nil B
  | cons x xs ih =>
      simp only [containsSubL, Bool.or_eq_true] at h
      rcases h with h | h
      · have := isPrefixOf_append_left pat (x :: xs) B h
        simp only [List.cons_append] at this ⊢
        simp [containsSubL, this]
      · simp [containsSubL, ih h]

theorem containsSubL_append_split (pat A B : List Char) (hp : pat ≠ []) :
    containsSubL pat (A ++ B)
      = (containsSubL pat A ||
          containsSubL pat (A.drop (A.length - (pat.length - 1)) ++ B)) := by
  have hp1 : 0 < pat.length := List.length_pos.mpr hp
  induction A with
  | nil =>
      have hpe : pat.isEmpty = false := by
        cases pat with
        | nil => exact absurd rfl hp
        | cons a as => rfl
      simp [containsSubL, hpe]
  | cons a A' ih =>
      by_cases hlen : pat.length ≤ A'.length + 1
      · rw [List.cons_append]
        show (pat.isPrefixOf (a :: (A' ++ B)) || containsSubL pat (A' ++ B)) = _
        rw [ih]
        have hpf : pat.isPrefixOf (a :: (A' ++ B)) = pat.isPrefixOf (a :: A') := by
          have h2 := isPrefixOf_append_of_le_length pat (a :: A') B
            (by simp only [List.length_cons]; omega)
          simpa [List.cons_append] using h2
        rw [hpf]
        have hdrop : (a :: A').length - (pat.length - 1)
            = (A'.length - (pat.length - 1)) + 1 := by
          simp only [List.length_cons]; omega
        rw [hdrop, List.drop_succ_cons]
        show _ = ((pat.isPrefixOf (a :: A') || containsSubL pat A') || _)
        rw [Bool.or_assoc]
      · have hshort : containsSubL pat (a :: A') = false :=
          containsSubL_eq_false_of_short pat (a :: A')
            (by simp only [List.length_cons]; omega)
        have hdrop0 : (a :: A').length - (pat.length - 1) = 0 := by
          simp only [List.length_cons]; omega
        rw [hdrop0, List.drop_zero, hshort, Bool.false_or]

theorem scanPieces_correct (pat : List Char) (hp : pat ≠ []) :
    ∀ (L : List (List Char)) (w : List Char), w.length < pat.length →
      scanPieces pat w L = containsSubL pat (w ++ L.flatten) := by
  have hp1 : 0 < pat.length := List.length_pos.mpr hp
  intro L
  induction L with
  | nil =>
      intro w hw
      simp [scanPieces, containsSubL_eq_false_of_short pat w hw]
  | cons p ps ih =>
      intro w hw
      simp only [scanPieces, List.flatten_cons]
      rw [ih _ (by simp only [List.length_drop]; omega)]
      rw [← List.append_assoc]
      rw [containsSubL_append_split pat (w ++ p) ps.flatten hp]

/-! ## Escaping (C1) -/

set_option maxRecDepth 40000 in
/-- C1: every user-supplied string embedded in a rendered listing (the search
term and each entry display/link name) passes through `html.escape`; in the
concrete instance of the claim — a directory holding an entry literally named
`<script>x</script>`, listed with the search term `<SCRIPT>` (lowercased to
`<script>` by the handler) — the full HTML document produced by
`list_directory`/`generate_html_list` contains no unescaped `<script>`
substring.  The scan runs through `scanPieces`, proved equal to the direct
substring scan by `scanPieces_correct`. -/
theorem listing_escapes_user_strings :
    (list_directory (fun _ => ⟨false, "12.00 B", "2024-01-01 00:00:00"⟩)
        ["<script>x</script>"] none (some "<SCRIPT>")).map
      (fun html => pyContains html "<script>") = Except.ok false := by
  have hdata :
      (generate_html_list (fun _ => ⟨false, "12.00 B", "2024-01-01 00:00:00"⟩)
          ["<script>x</script>"] 1 1 "<script>").data
        = ([TPL_part1.data, "utf-8".data, TPL_part2.data,
            (html_escape true "文件共享目录索引").data,
            TPL_part3_c0.data, TPL_part3_c1.data, TPL_part3_c2.data,
            (html_escape true "文件共享目录索引").data, TPL_part4.data,
            (html_escape true "<script>").data, TPL_part5.data,
            (generate_file_entry "<script>x</script>" "<script>x</script>"
              "12.00 B" "2024-01-01 00:00:00").data,
            FOOTER_part1.data, (pagination_links 1 1 "<script>").data,
            FOOTER_part2.data]).flatten := by
    simp only [generate_html_list, directory_list_header, directory_list_footer,
      TPL_part3, List.map_cons, List.map_nil, String.join, List.foldl,
      String.data_append, List.flatten_cons, List.flatten_nil,
      List.append_assoc, List.append_nil, List.nil_append, Bool.false_eq_true,
      if_false]
  have hscan : scanPieces "<script>".data []
      [TPL_part1.data, "utf-8".data, TPL_part2.data,
        (html_escape true "文件共享目录索引").data,
        TPL_part3_c0.data, TPL_part3_c1.data, TPL_part3_c2.data,
        (html_escape true "文件共享目录索引").data, TPL_part4.data,
        (html_escape true "<script>").data, TPL_part5.data,
        (generate_file_entry "<script>x</script>" "<script>x</script>"
          "12.00 B" "2024-01-01 00:00:00").data,
        FOOTER_part1.data, (pagination_links 1 1 "<script>").data,
        FOOTER_part2.data] = false := by decide
  have hmain : pyContains (generate_html_list
      (fun _ => ⟨false, "12.00 B", "2024-01-01 00:00:00"⟩)
      ["<script>x</script>"] 1 1 "<script>") "<script>" = false := by
    have hc := scanPieces_correct "<script>".data (by decide)
      [TPL_part1.data, "utf-8".data, TPL_part2.data,
        (html_escape true "文件共享目录索引").data,
        TPL_part3_c0.data, TPL_part3_c1.data, TPL_part3_c2.data,
        (html_escape true "文件共享目录索引").data, TPL_part4.data,
        (html_escape true "<script>").data, TPL_part5.data,
        (generate_file_entry "<script>x</script>" "<script>x</script>"
          "12.00 B" "2024-01-01 00:00:00").data,
        FOOTER_part1.data, (pagination_links 1 1 "<script>").data,
        FOOTER_part2.data] [] (by decide)
    rw [List.nil_append] at hc
    show containsSubL "<script>".data
      (generate_html_list (fun _ => ⟨false, "12.00 B", "2024-01-01 00:00:00"⟩)
        ["<script>x</script>"] 1 1 "<script>").data = false
    rw [hdata, ← hc]
    exact hscan
  have hstep : (list_directory (fun _ => ⟨false, "12.00 B", "2024-01-01 00:00:00"⟩)
        ["<script>x</script>"] none (some "<SCRIPT>")).map
      (fun html => pyContains html "<script>")
      = Except.ok (pyContains (generate_html_list
          (fun _ => ⟨false, "12.00 B", "2024-01-01 00:00:00"⟩)
          ["<script>x</script>"] 1 1 "<script>") "<script>") := rfl
  rw [hstep, hmain]

/-! ## Pagination (C2, C7, C9) -/

/-- C2: for a directory with `N` matching entries and page size 20,
`list_directory` computes `totalPages = max 1 ⌈N/20⌉`; every integer page
parameter is clamped into `[1, totalPages]` (0 clamps to 1,
`totalPages + 5` clamps to `totalPages`); and for any `P` in
`[1, totalPages]` the page window is exactly the entries at indices
`[(P-1)*20, P*20)` of the case-insensitively sorted, filtered list. -/
theorem listing_pagination_spec (entries : List String) (search : String) (P : Int)
    (h1 : 1 ≤ P)
    (h2 : P ≤ ((totalPagesOf (sortEntries (filterEntries entries search)).length : Nat) : Int)) :
    (list_directory_paging entries search P).totalPages
        = max 1 ((sortEntries (filterEntries entries search)).length ⌈/⌉ PAGE_SIZE) ∧
    (list_directory_paging entries search 0).page = 1 ∧
    (list_directory_paging entries search
        (((totalPagesOf (sortEntries (filterEntries entries search)).length : Nat) : Int) + 5)).page
        = ((totalPagesOf (sortEntries (filterEntries entries search)).length : Nat) : Int) ∧
    (∀ Q : Int, 1 ≤ (list_directory_paging entries search Q).page ∧
        (list_directory_paging entries search Q).page
          ≤ ((totalPagesOf (sortEntries (filterEntries entries search)).length : Nat) : Int)) ∧
    (list_directory_paging entries search P).pageEntries
        = ((sortEntries (filterEntries entries search)).drop ((P.toNat - 1) * PAGE_SIZE)).take
            PAGE_SIZE := by
  have htp1 : 1 ≤ totalPagesOf (sortEntries (filterEntries entries search)).length :=
    le_max_left 1 _
  refine ⟨?_, ?_, ?_, ?_, ?_⟩
  · simp [list_directory_paging, totalPagesOf, Nat.ceilDiv_eq_add_pred_div]
  · simp only [list_directory_paging, clampPage]
    omega
  · simp only [list_directory_paging, clampPage]
    omega
  · intro Q
    simp only [list_directory_paging, clampPage]
    omega
  · have hclamp : clampPage P (totalPagesOf (sortEntries (filterEntries entries search)).length)
        = P := by
      simp only [clampPage]
      omega
    have harith : ((P - 1) * ((PAGE_SIZE : Nat) : Int)).toNat = (P.toNat - 1) * PAGE_SIZE := by
      simp only [PAGE_SIZE]
      omega
    simp only [list_directory_paging, hclamp, pySlice, harith, Nat.add_sub_cancel_left]

/-- Witness for C2 at `entries = ["a"]`, empty search, page 1. -/
theorem listing_pagination_spec_witness :
    (list_directory_paging ["a"] "" 1).pageEntries
      = ((sortEntries (filterEntries ["a"] "")).drop (((1 : Int).toNat - 1) * PAGE_SIZE)).take
          PAGE_SIZE :=
  (listing_pagination_spec ["a"] "" 1 (by decide) (by decide)).2.2.2.2

/-- C7 counterexample: the claim says the listing for search term `t`
against `["Test.txt", "alpha", "TABLE.csv"]` returns
`["Test.txt", "TABLE.csv"]` "in that sorted order", but the
case-insensitive sort of `list_directory` puts `table.csv` before
`test.txt`, so that is not the returned order. -/
theorem search_sorted_order_counterexample :
    (list_directory_request ["Test.txt", "alpha", "TABLE.csv"] none (some "t")).map
        (fun o => o.pageEntries) ≠ Except.ok ["Test.txt", "TABLE.csv"] := by decide

/-- C7 (amended): filtering keeps exactly the entries whose lowercase name
contains `t` — `Test.txt` and `TABLE.csv` — and the listing returns them
case-insensitively sorted as `["TABLE.csv", "Test.txt"]`. -/
theorem search_filter_and_sorted_order :
    filterEntries ["Test.txt", "alpha", "TABLE.csv"] "t" = ["Test.txt", "TABLE.csv"] ∧
    (list_directory_request ["Test.txt", "alpha", "TABLE.csv"] none (some "t")).map
        (fun o => o.pageEntries) = Except.ok ["TABLE.csv", "Test.txt"] := by decide

/-- C9: a `page` query value that is not a valid Python decimal integer
literal makes the `int()` conversion raise `ValueError` before any clamping
or rendering, so `list_directory` produces no listing for that request. -/
theorem page_param_value_error (statOf : String → EntryStat) (entries : List String)
    (searchQ : Option String) (s e : String) (h : pyInt s = Except.error e) :
    list_directory statOf entries (some s) searchQ = Except.error e := by
  simp [list_directory, list_directory_request, h, Except.bind]

/-- Witness for C9 at `page=abc`. -/
theorem page_param_value_error_witness :
    list_directory (fun _ => ⟨false, "", ""⟩) [] (some "abc") none
      = Except.error "ValueError" :=
  page_param_value_error (fun _ => ⟨false, "", ""⟩) [] none "abc" "ValueError" (by decide)

/-! ## Archive builder (C3, C6) -/

theorem zipWriteGo_spec (files : List String) (failAt : Option Nat) :
    ∀ (rest : List String) (i : Nat) (fs : ZipFS),
      ((zipWriteGo files failAt i rest fs).ok = false →
          (zipWriteGo files failAt i rest fs).fs.temp = none ∧
          (zipWriteGo files failAt i rest fs).fs.target = fs.target) ∧
      ((zipWriteGo files failAt i rest fs).ok = true →
          (zipWriteGo files failAt i rest fs).fs
            = ⟨some ⟨files, true⟩, none⟩) ∧
      (∀ s ∈ (zipWriteGo files failAt i rest fs).trace,
          s.target = fs.target ∨ s.target = some ⟨files, true⟩) ∧
      (zipWriteGo files failAt i rest fs).trace.getLast?
        = some (zipWriteGo files failAt i rest fs).fs := by
  intro rest
  induction rest with
  | nil =>
      intro i fs
      by_cases h : failAt = some (i + 1) <;>
        simp [zipWriteGo, h]
  | cons x rs ih =>
      intro i fs
      by_cases h : failAt = some (i + 1)
      · simp [zipWriteGo, h]
      · obtain ⟨ih1, ih2, ih3, ih4⟩ :=
          ih (i + 1) { fs with temp := some ⟨files.take (i + 1), false⟩ }
        simp only [zipWriteGo, h, if_false, ite_false] at *
        refine ⟨?_, ?_, ?_, ?_⟩
        · intro hok
          exact ih1 hok
        · intro hok
          exact ih2 hok
        · intro s hs
          rcases List.mem_cons.mp hs with rfl | hs
          · exact Or.inl rfl
          · exact ih3 s hs
        · cases htr : (zipWriteGo files failAt (i + 1) rs
              { fs with temp := some ⟨files.take (i + 1), false⟩ }).trace with
          | nil => rw [htr] at ih4; simp at ih4
          | cons b bs =>
              rw [htr] at ih4
              simpa [List.getLast?_cons_cons] using ih4

/-- C3: whenever `create_zip` fails mid-build — at temp creation, while
writing any member, or at the final rename — it deletes the temporary file
and returns failure with the target untouched; at no intermediate state does
the target path hold anything but its original content or the fully built
archive; and on a fresh successful build the last recorded step is the
rename that installs the complete archive. -/
theorem create_zip_failure_cleanup (files : List String) (failAt : Option Nat)
    (fs : ZipFS) (hTemp : fs.temp = none) :
    ((create_zip files failAt fs).ok = false →
        (create_zip files failAt fs).fs.temp = none ∧
        (create_zip files failAt fs).fs.target = fs.target) ∧
    (∀ s ∈ (create_zip files failAt fs).trace,
        s.target = fs.target ∨ s.target = some ⟨files, true⟩) ∧
    ((create_zip files failAt fs).ok = true → fs.target = none →
        (create_zip files failAt fs).fs = ⟨some ⟨files, true⟩, none⟩ ∧
        (create_zip files failAt fs).trace.getLast?
          = some ⟨some ⟨files, true⟩, none⟩) := by
  by_cases hT : fs.target.isSome
  · refine ⟨?_, ?_, ?_⟩ <;> simp [create_zip, hT]
    intro htgt
    rw [htgt] at hT
    simp at hT
  · by_cases hf : failAt = some 0
    · refine ⟨?_, ?_, ?_⟩ <;> simp [create_zip, hT, hf, hTemp]
    · obtain ⟨g1, g2, g3, g4⟩ := zipWriteGo_spec files failAt files 0
        { fs with temp := some ⟨[], false⟩ }
      refine ⟨?_, ?_, ?_⟩
      · intro hok
        simp only [create_zip, hT, hf, if_false, Bool.false_eq_true, ite_false] at hok ⊢
        exact g1 hok
      · intro s hs
        simp only [create_zip, hT, hf, if_false, Bool.false_eq_true, ite_false] at hs
        rcases List.mem_cons.mp hs with rfl | hs
        · exact Or.inl rfl
        · exact g3 s hs
      · intro hok htgt
        simp only [create_zip, hT, hf, if_false, Bool.false_eq_true, ite_false] at hok ⊢
        have hfs := g2 hok
        refine ⟨hfs, ?_⟩
        cases htr : (zipWriteGo files failAt 0 files
            { fs with temp := some ⟨[], false⟩ }).trace with
        | nil => rw [htr] at g4; simp at g4
        | cons b bs =>
            rw [htr] at g4
            rw [hfs] at g4
            simpa [List.getLast?_cons_cons] using g4

/-- Witness for C3: failure while writing the first member of `["a"]`
starting from an empty filesystem. -/
theorem create_zip_failure_cleanup_witness :
    (create_zip ["a"] (some 1) ⟨none, none⟩).fs.temp = none ∧
    (create_zip ["a"] (some 1) ⟨none, none⟩).fs.target = (⟨none, none⟩ : ZipFS).target :=
  (create_zip_failure_cleanup ["a"] (some 1) ⟨none, none⟩ rfl).1 (by decide)

/-- C6: when a file already exists at the target path, `create_zip` returns
success immediately: no build steps run, and the filesystem — in particular
the existing archive — is unchanged, whatever the current source directory
contents are. -/
theorem create_zip_reuses_existing (files : List String) (failAt : Option Nat)
    (fs : ZipFS) (z : ZipData) (h : fs.target = some z) :
    create_zip files failAt fs = ⟨true, fs, []⟩ := by
  simp [create_zip, h]

/-- Witness for C6: an archive built from old contents `["old"]` is reused
untouched even though the directory now holds `["new"]`. -/
theorem create_zip_reuses_existing_witness :
    create_zip ["new"] none ⟨some ⟨["old"], true⟩, none⟩
      = ⟨true, ⟨some ⟨["old"], true⟩, none⟩, []⟩ :=
  create_zip_reuses_existing ["new"] none ⟨some ⟨["old"], true⟩, none⟩ ⟨["old"], true⟩ rfl

/-! ## Size cache (C4) -/

/-- C4 (code bug): with the directory unmodified (same mtime 5, same walk
total 7), a first call by handler instance 0 walks and caches; a second call
by a different handler instance 1 returns the identical value but performs
the recursive walk again, because the `lru_cache` key of the instance method
`_cached_get_directory_size` includes `self`; only a repeat call by the same
instance is a cache hit.  This refutes the claim's "regardless of which
request handler instance performs each call". -/
theorem size_cache_cross_instance_recomputes :
    (get_directory_size (some 5) 7 0 "d" []).1 = 7 ∧
    (get_directory_size (some 5) 7 0 "d" []).2.1 = true ∧
    (get_directory_size (some 5) 7 1 "d" (get_directory_size (some 5) 7 0 "d" []).2.2).1 = 7 ∧
    (get_directory_size (some 5) 7 1 "d" (get_directory_size (some 5) 7 0 "d" []).2.2).2.1
      = true ∧
    (get_directory_size (some 5) 7 0 "d" (get_directory_size (some 5) 7 0 "d" []).2.2).2.1
      = false := by decide

/-! ## Content streamer (C5, C8, C10) -/

theorem readChunksGo_nil (fuel : Nat) : readChunksGo fuel [] = [] := by
  cases fuel <;> rfl

theorem readChunksGo_flatten : ∀ (fuel : Nat) (l : List Nat), l.length ≤ fuel →
    (readChunksGo fuel l).flatten = l := by
  intro fuel
  induction fuel with
  | zero =>
      intro l hl
      cases l with
      | nil => rfl
      | cons c rest => simp at hl
  | succ fuel ih =>
      intro l hl
      cases l with
      | nil => rfl
      | cons c rest =>
          have hC : 0 < FILE_CHUNK_SIZE := by decide
          simp only [readChunksGo, List.flatten_cons]
          rw [ih ((c :: rest).drop FILE_CHUNK_SIZE)
            (by simp only [List.length_drop, List.length_cons] at *; omega)]
          exact List.take_append_drop _ _

theorem readChunksGo_chunk_bounds : ∀ (fuel : Nat) (l : List Nat),
    ∀ ch ∈ readChunksGo fuel l, ch ≠ [] ∧ ch.length ≤ FILE_CHUNK_SIZE := by
  intro fuel
  induction fuel with
  | zero =>
      intro l ch hch
      cases l with
      | nil => simp [readChunksGo] at hch
      | cons c rest => simp [readChunksGo] at hch
  | succ fuel ih =>
      intro l ch hch
      cases l with
      | nil => simp [readChunksGo] at hch
      | cons c rest =>
          simp only [readChunksGo, List.mem_cons] at hch
          rcases hch with rfl | hch
          · constructor
            · have : 0 < ((c :: rest).take FILE_CHUNK_SIZE).length := by
                simp only [List.length_take, List.length_cons]
                have hC : 0 < FILE_CHUNK_SIZE := by decide
                omega
              exact List.ne_nil_of_length_pos this
            · simp only [List.length_take]
              exact Nat.min_le_left _ _
          · exact ih _ ch hch

theorem readChunksGo_dropLast_full : ∀ (fuel : Nat) (l : List Nat),
    ∀ ch ∈ (readChunksGo fuel l).dropLast, ch.length = FILE_CHUNK_SIZE := by
  intro fuel
  induction fuel with
  | zero =>
      intro l ch hch
      cases l with
      | nil => simp [readChunksGo] at hch
      | cons c rest => simp [readChunksGo] at hch
  | succ fuel ih =>
      intro l ch hch
      cases l with
      | nil => simp [readChunksGo] at hch
      | cons c rest =>
          simp only [readChunksGo] at hch
          cases hT : readChunksGo fuel ((c :: rest).drop FILE_CHUNK_SIZE) with
          | nil => rw [hT] at hch; simp at hch
          | cons b bs =>
              rw [hT] at hch
              rw [List.dropLast_cons_of_ne_nil (by simp)] at hch
              rcases List.mem_cons.mp hch with rfl | hch
              · have hdrop : (c :: rest).drop FILE_CHUNK_SIZE ≠ [] := by
                  intro hd
                  rw [hd, readChunksGo_nil] at hT
                  exact List.noConfusion hT
                have hlen : FILE_CHUNK_SIZE < (c :: rest).length := by
                  by_contra hle
                  exact hdrop (List.drop_eq_nil_of_le (by omega))
                simp only [List.length_take]
                omega
              · rw [← hT] at hch
                exact ih _ ch hch

/-- C8: a content-fetch request without `render=html` streams the file in
chunks of at most 16 KiB — every chunk nonempty, every chunk but the last
exactly 16 KiB — and the concatenation of the chunks is byte-for-byte the
file content, for each size in {0, C-1, C, C+1, 10·C}. -/
theorem streaming_chunks_reconstruct (mdAvailable : Bool) (mdConvert : String → String)
    (suffix : String) (decoded : Option String) (content : List Nat)
    (_h : content.length ∈
        [0, FILE_CHUNK_SIZE - 1, FILE_CHUNK_SIZE, FILE_CHUNK_SIZE + 1,
          10 * FILE_CHUNK_SIZE]) :
    handle_text_file mdAvailable mdConvert suffix true content decoded
        (some "get_content") none = TFResponse.stream (readChunks content) ∧
    (readChunks content).flatten = content ∧
    (∀ ch ∈ readChunks content, ch ≠ [] ∧ ch.length ≤ FILE_CHUNK_SIZE) ∧
    (∀ ch ∈ (readChunks content).dropLast, ch.length = FILE_CHUNK_SIZE) := by
  refine ⟨?_, ?_, ?_, ?_⟩
  · simp [handle_text_file, serve_file_content]
  · exact readChunksGo_flatten content.length content (Nat.le_refl _)
  · exact readChunksGo_chunk_bounds content.length content
  · exact readChunksGo_dropLast_full content.length content

/-- Witness for C8 at the empty file (size 0). -/
theorem streaming_chunks_reconstruct_witness :
    (readChunks ([] : List Nat)).flatten = [] :=
  (streaming_chunks_reconstruct false (fun s => s) ".txt" none [] (by decide)).2.1

/-- C5 counterexample: with the markdown library unavailable, a
`get_content` + `render=html` request on a `.md` file does NOT produce a
Server-Error-class response — it answers with a success (the plain-text
chunk stream), because line 564 of `handle_text_file` requires
`MARKDOWN_AVAILABLE` before routing to `_serve_file_content_as_html`, whose
500 branch is therefore unreachable. -/
theorem markdown_unavailable_not_server_error :
    isServerError (handle_text_file false (fun s => s) ".md" true [72] (some "H")
        (some "get_content") (some "html")) = false ∧
    handle_text_file false (fun s => s) ".md" true [72] (some "H")
        (some "get_content") (some "html") = TFResponse.stream [[72]] := by decide

/-- C5 (amended): when the markdown library is unavailable, an explicit
`render=html` content-fetch on any file falls through to the plain
`text/plain` chunk stream (a success response); no Server-Error is
returned. -/
theorem markdown_unavailable_falls_back_to_stream (mdConvert : String → String)
    (suffix : String) (content : List Nat) (decoded : Option String) :
    handle_text_file false mdConvert suffix true content decoded
        (some "get_content") (some "html") = TFResponse.stream (readChunks content) := by
  simp [handle_text_file, serve_file_content]

/-- C10: a `get_content` request carrying `render=html` on a text-like file
whose extension is not `.md` is not an error: it behaves exactly as if
`render=html` were absent, streaming the raw bytes as `text/plain`. -/
theorem render_html_non_md_streams_plain (mdAvailable : Bool)
    (mdConvert : String → String) (suffix : String) (content : List Nat)
    (decoded : Option String) (h : strToLower suffix ≠ ".md") :
    handle_text_file mdAvailable mdConvert suffix true content decoded
        (some "get_content") (some "html")
      = handle_text_file mdAvailable mdConvert suffix true content decoded
          (some "get_content") none ∧
    handle_text_file mdAvailable mdConvert suffix true content decoded
        (some "get_content") (some "html") = TFResponse.stream (readChunks content) := by
  constructor <;> simp [handle_text_file, serve_file_content, h]

/-- Witness for C10 at a `.txt` file. -/
theorem render_html_non_md_streams_plain_witness :
    handle_text_file true (fun s => s) ".txt" true [72] none
        (some "get_content") (some "html")
      = handle_text_file true (fun s => s) ".txt" true [72] none
          (some "get_content") none :=
  (render_html_non_md_streams_plain true (fun s => s) ".txt" [72] none (by decide)).1

end DirServer
